import Mathlib

/-!
Verification of the `rpc-shared-api` crate: wire-level data model and RPC
contract between a BFT consensus engine and an execution layer.

The Rust sources are embedded shallowly:
* `u8` bytes become `Fin 256`; wider unsigned integers (`u32`, `u64`,
  `usize`) become `Nat` (no claim here depends on wrap-around);
* `Vec<T>` and `[u8; 32]` become `List` (the fixed length 32 is carried as
  a subtype invariant, exactly as the Rust array type carries it);
* `serde_json` serialization is modelled at the level of the JSON value
  tree: each `Serialize` derive becomes an encoder into an inductive
  `Json` type following serde's documented data model (structs are objects
  keyed by field name, newtype structs are transparent, byte vectors are
  arrays of integers, tuples are arrays), and each `Deserialize` derive
  becomes a partial decoder;
* the external `base64` crate's `STANDARD` engine is modelled by the
  RFC 4648 standard-alphabet encoder with `=` padding.
-/

namespace RpcSharedApi

/-- Bytes of the wire format: the Rust `u8`. -/
abbrev Byte := Fin 256

/-- Digest length in bytes (32 bytes for SHA-256); `DIGEST_LENGTH` in
`types/primitives.rs`. -/
def DIGEST_LENGTH : Nat := 32

/-- The raw 32-byte array `[u8; DIGEST_LENGTH]` used in `BlockRef.digest`,
`CommitRef.digest` and inside `BlockDigest`. -/
abbrev Digest32 := { l : List Byte // l.length = DIGEST_LENGTH }

/-- Authority index type, `pub type AuthorityIndex = u32`. -/
abbrev AuthorityIndex := Nat

/-- Block timestamp in milliseconds, `pub type BlockTimestampMs = u64`. -/
abbrev BlockTimestampMs := Nat

/-- Block reference from `types/primitives.rs`: leader address string,
32-byte digest and round number. -/
structure BlockRef where
  leader_address : String
  digest : Digest32
  round : Nat
deriving DecidableEq

/-- Commit reference from `types/primitives.rs`: 32-byte digest and round
number (a `usize` commit-sequence number). -/
structure CommitRef where
  digest : Digest32
  round : Nat
deriving DecidableEq

/-- Transaction from `types/primitives.rs`: a wrapper around raw bytes
(`inner: Vec<u8>`). -/
structure Transaction where
  inner : List Byte
deriving DecidableEq

/-- Constructor `Transaction::new(data)`: total, stores the bytes as given. -/
def Transaction.new (data : List Byte) : Transaction :=
  ⟨data⟩

/-- Accessor `Transaction::data`. -/
def Transaction.data (t : Transaction) : List Byte :=
  t.inner

/-- Consuming accessor `Transaction::into_data`. -/
def Transaction.into_data (t : Transaction) : List Byte :=
  t.inner

/-- The body of a block, `pub type Block = Vec<Transaction>` in
`types/block.rs`. -/
abbrev Block := List Transaction

/-- Signed block envelope from `types/block.rs`: transaction body plus a
signature byte vector. -/
structure SignedBlock where
  inner : Block
  signature : List Byte
deriving DecidableEq

/-- Constructor `SignedBlock::new(block)`: wraps the body with an empty
signature. -/
def SignedBlock.new (block : Block) : SignedBlock :=
  ⟨block, []⟩

/-- Accessor `SignedBlock::transactions`. -/
def SignedBlock.transactions (b : SignedBlock) : Block :=
  b.inner

/-- Newtype `pub struct BlockDigest(pub [u8; DIGEST_LENGTH])` from
`types/block.rs`. -/
structure BlockDigest where
  arr : Digest32
deriving DecidableEq

/-- Lexicographic minimum digest, `BlockDigest::MIN = Self([u8::MIN; 32])`. -/
def BlockDigest.MIN : BlockDigest :=
  ⟨⟨List.replicate DIGEST_LENGTH 0, List.length_replicate _ _⟩⟩

/-- Lexicographic maximum digest, `BlockDigest::MAX = Self([u8::MAX; 32])`. -/
def BlockDigest.MAX : BlockDigest :=
  ⟨⟨List.replicate DIGEST_LENGTH 255, List.length_replicate _ _⟩⟩

/-- Comparison of two bytes, as Rust `Ord::cmp` on `u8`. -/
def cmpByte (a b : Byte) : Ordering :=
  if a < b then .lt else if b < a then .gt else .eq

/-- Element-wise comparison of byte slices, as the derived `Ord` on a Rust
array: the first unequal position decides; shorter prefixes compare less. -/
def cmpBytes : List Byte → List Byte → Ordering
  | [], [] => .eq
  | [], _ :: _ => .lt
  | _ :: _, [] => .gt
  | a :: as_, b :: bs =>
    match cmpByte a b with
    | .eq => cmpBytes as_ bs
    | o => o

/-- The derived `Ord::cmp` on `BlockDigest`: compares the inner arrays. -/
def BlockDigest.cmp (d1 d2 : BlockDigest) : Ordering :=
  cmpBytes d1.arr.val d2.arr.val

/-- The derived `<=` on `BlockDigest` (`cmp != Greater`). -/
def BlockDigest.le (d1 d2 : BlockDigest) : Bool :=
  match BlockDigest.cmp d1 d2 with
  | .gt => false
  | _ => true

/-- The bytes fed to the hasher by `impl Hash for BlockDigest`:
`state.write(&self.0[..8])` — only the first 8 bytes of the digest.
A deterministic hasher's output is a function of exactly these bytes, so
two digests hash identically iff their `hashBytes` agree. -/
def BlockDigest.hashBytes (d : BlockDigest) : List Byte :=
  d.arr.val.take 8

/-- Committed-subdag transport types from `types/subdag.rs`: a signed block
together with its digest. -/
structure VerifiedBlock where
  block : SignedBlock
  digest : BlockDigest
deriving DecidableEq

/-- The atomic unit of consensus output, `CommittedSubDag` from
`types/subdag.rs`. -/
structure CommittedSubDag where
  leader : BlockRef
  blocks : List VerifiedBlock
  timestamp_ms : BlockTimestampMs
  commit_ref : CommitRef
  reputation_scores_desc : List (AuthorityIndex × Nat)
deriving DecidableEq

/-- Derived view `CommittedSubDag::flatten_transactions`: for each block in
stored order, each transaction's data bytes in stored order, flattened into
one list (`iter().flat_map(..).collect()`). -/
def CommittedSubDag.flatten_transactions (s : CommittedSubDag) : List (List Byte) :=
  (s.blocks.map (fun block => block.block.transactions.map (fun tx => tx.data))).flatten

/-- Derived view `CommittedSubDag::len`: the sum over blocks of each block's
transaction count. -/
def CommittedSubDag.len (s : CommittedSubDag) : Nat :=
  (s.blocks.map (fun block => block.block.transactions.length)).sum

/-- Specification-side restatement of C2's wording: the concatenation of
each block's transaction payloads, block by block, written as a direct
recursion to compare with `flatten_transactions`. -/
def concatBlockTransactions : List VerifiedBlock → List (List Byte)
  | [] => []
  | b :: rest => b.block.transactions.map (fun tx => tx.data) ++ concatBlockTransactions rest

/-- Digest array used by the concrete test scenario: byte 0 set to the
round number, all other bytes zero (as `create_test_block_ref` builds it). -/
def scenarioDigest : Digest32 :=
  ⟨1 :: List.replicate 31 0, by simp [DIGEST_LENGTH]⟩

/-- The spec's concrete scenario: a `CommittedSubDag` with leader round 1,
one block containing transactions `[1,2,3]` and `[4,5,6]`, timestamp `1000`,
commit round `1`, empty reputation scores. -/
def scenarioSubdag : CommittedSubDag :=
  { leader := { leader_address := "", digest := scenarioDigest, round := 1 }
    blocks := [{ block := SignedBlock.new [Transaction.new [1, 2, 3], Transaction.new [4, 5, 6]]
                 digest := ⟨scenarioDigest⟩ }]
    timestamp_ms := 1000
    commit_ref := { digest := scenarioDigest, round := 1 }
    reputation_scores_desc := [] }

/-- Sample digest for hash-truncation checks: all 32 bytes zero. -/
def sampleDigestA : BlockDigest :=
  ⟨⟨List.replicate DIGEST_LENGTH 0, List.length_replicate _ _⟩⟩

/-- Sample digest for hash-truncation checks: agrees with `sampleDigestA`
on the first 8 bytes but differs at the last byte. -/
def sampleDigestB : BlockDigest :=
  ⟨⟨List.replicate 31 0 ++ [1], by simp [DIGEST_LENGTH]⟩⟩

/-- Payload shape of an RPC method, read off the trait method signatures. -/
inductive RpcPayload where
  | committedSubDag
  | committedSubDagList
  | rawBytes
  | rawBytesList
  | rawBytesBatchStream
deriving DecidableEq

/-- One RPC method declaration: the namespace string from the `rpc`
attribute, the wire-level method name from the `method`/`subscription`
attribute, and the payload shape of its argument or stream item. -/
structure RpcMethod where
  ns : String
  method : String
  payload : RpcPayload
deriving DecidableEq

/-- The `MysticetiConsensusApi` trait of `api/mysticeti.rs`, declared with
`namespace = "mysticeti"`: `submitCommittedSubdags` over a vector of
sub-DAGs and `submitCommittedSubdag` over a single sub-DAG, in source
order. -/
def mysticetiConsensusApi : List RpcMethod :=
  [{ ns := "mysticeti", method := "submitCommittedSubdags", payload := .committedSubDagList },
   { ns := "mysticeti", method := "submitCommittedSubdag", payload := .committedSubDag }]

/-- The `RawTransactionApi` trait of `api/rawtx.rs`, declared with
`namespace = "rawtx"`: the two async send methods and the raw-transaction
subscription, in source order. -/
def rawTransactionApi : List RpcMethod :=
  [{ ns := "rawtx", method := "sendRawTransactionAsync", payload := .rawBytes },
   { ns := "rawtx", method := "sendRawTransactionsAsync", payload := .rawBytesList },
   { ns := "rawtx", method := "subscribeRawTransactions", payload := .rawBytesBatchStream }]

/-- Alphabet of standard base64 (RFC 4648), as used by the `base64` crate's
`STANDARD` engine that `types/block.rs` calls for digest rendering. -/
def base64Alphabet : List Char :=
  "ABCDEFGHIJKLMNOPQRSTUVWXYZabcdefghijklmnopqrstuvwxyz0123456789+/".toList

/-- Character for one 6-bit group. -/
def sextetChar (n : Nat) : Char :=
  base64Alphabet.getD n 'A'

/-- Modelled from the external `base64` crate (`STANDARD` engine): standard
base64 with `=` padding, three input bytes per four output characters. -/
def base64Encode : List Byte → List Char
  | [] => []
  | [a] => [sextetChar (a.val / 4), sextetChar (a.val % 4 * 16), '=', '=']
  | [a, b] => [sextetChar (a.val / 4), sextetChar (a.val % 4 * 16 + b.val / 16),
      sextetChar (b.val % 16 * 4), '=']
  | a :: b :: c :: rest =>
      sextetChar (a.val / 4) :: sextetChar (a.val % 4 * 16 + b.val / 16)
        :: sextetChar (b.val % 16 * 4 + c.val / 64) :: sextetChar (c.val % 64)
        :: base64Encode rest

/-- The `Display` impl for `BlockDigest` renders
`encode(STANDARD, self.0).get(0..4).ok_or(fmt::Error)`: the first four
characters of the base64 encoding, with `none` modelling `fmt::Error` when
fewer than four characters exist. -/
def BlockDigest.display (d : BlockDigest) : Option (List Char) :=
  let e := base64Encode d.arr.val
  if 4 ≤ e.length then some (e.take 4) else none

/-- The `Debug` impl for `BlockDigest` renders the entire base64 encoding. -/
def BlockDigest.debugStr (d : BlockDigest) : List Char :=
  base64Encode d.arr.val

/-- Compact rendering of one byte vector, as `serde_json` prints a
`Vec<u8>`: decimal numbers between square brackets. -/
def renderByteList (l : List Byte) : String :=
  "[" ++ String.intercalate ("," : String) (l.map (fun b => toString b.val)) ++ "]"

/-- Compact rendering of a batch of byte vectors, as `serde_json` prints a
`Vec<Vec<u8>>`. -/
def renderBatch (batch : List (List Byte)) : String :=
  "[" ++ String.intercalate ("," : String) (batch.map renderByteList) ++ "]"

/-- Function `serialize_transactions` of `types/transaction.rs`:
`serde_json::to_string(&batch)`. Its Rust `Result` is modelled by `Except`;
`serde_json` string serialization of a vector of byte vectors has no
reachable error case (errors arise only from maps with non-string keys or
failing `Serialize` impls), so the embedding produces `Except.ok` of the
rendered JSON on every input. -/
def serialize_transactions (batch : List (List Byte)) : Except String String :=
  Except.ok (renderBatch batch)

/-- The `serde_json` value tree. The textual encoding factors through this
tree (`to_string` renders it, `from_str` parses back into it); numbers are
restricted to the unsigned integers these wire types actually use. -/
inductive Json where
  | num : Nat → Json
  | str : String → Json
  | arr : List Json → Json
  | obj : List (String × Json) → Json

/-- Serialization of one `u8`. -/
def encodeByte (b : Byte) : Json :=
  .num b.val

/-- Serialization of a `Vec<u8>`: an array of 8-bit integers. -/
def encodeBytes (l : List Byte) : Json :=
  .arr (l.map encodeByte)

/-- Serialization of a `[u8; 32]` array. -/
def encodeDigest32 (d : Digest32) : Json :=
  .arr (d.val.map encodeByte)

/-- Serialization of `BlockDigest`: a newtype struct serializes
transparently as its inner array. -/
def encodeBlockDigest (d : BlockDigest) : Json :=
  encodeDigest32 d.arr

/-- Serialization of `Transaction`: an object with its one named field. -/
def encodeTransaction (t : Transaction) : Json :=
  .obj [("inner", encodeBytes t.inner)]

/-- Serialization of `SignedBlock`: object with `inner` (array of
transactions) and `signature` (byte array). -/
def encodeSignedBlock (b : SignedBlock) : Json :=
  .obj [("inner", .arr (b.inner.map encodeTransaction)),
        ("signature", encodeBytes b.signature)]

/-- Serialization of `BlockRef`. -/
def encodeBlockRef (r : BlockRef) : Json :=
  .obj [("leader_address", .str r.leader_address),
        ("digest", encodeDigest32 r.digest),
        ("round", .num r.round)]

/-- Serialization of `CommitRef`. -/
def encodeCommitRef (r : CommitRef) : Json :=
  .obj [("digest", encodeDigest32 r.digest),
        ("round", .num r.round)]

/-- Serialization of `VerifiedBlock`. -/
def encodeVerifiedBlock (v : VerifiedBlock) : Json :=
  .obj [("block", encodeSignedBlock v.block),
        ("digest", encodeBlockDigest v.digest)]

/-- Serialization of one reputation-score entry `(AuthorityIndex, u64)`:
a tuple serializes as a two-element array. -/
def encodeScore (p : AuthorityIndex × Nat) : Json :=
  .arr [.num p.1, .num p.2]

/-- Serialization of `CommittedSubDag`. -/
def encodeCommittedSubDag (s : CommittedSubDag) : Json :=
  .obj [("leader", encodeBlockRef s.leader),
        ("blocks", .arr (s.blocks.map encodeVerifiedBlock)),
        ("timestamp_ms", .num s.timestamp_ms),
        ("commit_ref", encodeCommitRef s.commit_ref),
        ("reputation_scores_desc", .arr (s.reputation_scores_desc.map encodeScore))]

/-- Field lookup in a JSON object, as a deserializer visits named fields. -/
def jsonField (j : Json) (name : String) : Option Json :=
  match j with
  | .obj fields => fields.lookup name
  | _ => none

/-- Deserialization of one `u8`: rejects anything but an integer below 256. -/
def decodeByte : Json → Option Byte
  | .num n => if h : n < 256 then some ⟨n, h⟩ else none
  | _ => none

/-- Deserialization of a `Vec<u8>`. -/
def decodeBytes : Json → Option (List Byte)
  | .arr js => js.mapM decodeByte
  | _ => none

/-- Deserialization of a `[u8; 32]`: rejects byte arrays of any other
length. -/
def decodeDigest32 (j : Json) : Option Digest32 :=
  (decodeBytes j).bind fun bs =>
    if h : bs.length = DIGEST_LENGTH then some ⟨bs, h⟩ else none

/-- Deserialization of `BlockDigest`. -/
def decodeBlockDigest (j : Json) : Option BlockDigest :=
  (decodeDigest32 j).map BlockDigest.mk

/-- Deserialization of a JSON string. -/
def decodeString : Json → Option String
  | .str s => some s
  | _ => none

/-- Deserialization of an unsigned integer. -/
def decodeNat : Json → Option Nat
  | .num n => some n
  | _ => none

/-- Deserialization of a homogeneous JSON array. -/
def decodeList {α : Type} (dec : Json → Option α) : Json → Option (List α)
  | .arr js => js.mapM dec
  | _ => none

/-- Deserialization of `Transaction`. -/
def decodeTransaction (j : Json) : Option Transaction :=
  (jsonField j ("inner")).bind fun ji => (decodeBytes ji).map Transaction.mk

/-- Deserialization of `SignedBlock`. -/
def decodeSignedBlock (j : Json) : Option SignedBlock := do
  let body ← (jsonField j ("inner")).bind (decodeList decodeTransaction)
  let sig ← (jsonField j ("signature")).bind decodeBytes
  pure ⟨body, sig⟩

/-- Deserialization of `BlockRef`. -/
def decodeBlockRef (j : Json) : Option BlockRef := do
  let la ← (jsonField j ("leader_address")).bind decodeString
  let dg ← (jsonField j ("digest")).bind decodeDigest32
  let rd ← (jsonField j ("round")).bind decodeNat
  pure ⟨la, dg, rd⟩

/-- Deserialization of `CommitRef`. -/
def decodeCommitRef (j : Json) : Option CommitRef := do
  let dg ← (jsonField j ("digest")).bind decodeDigest32
  let rd ← (jsonField j ("round")).bind decodeNat
  pure ⟨dg, rd⟩

/-- Deserialization of `VerifiedBlock`. -/
def decodeVerifiedBlock (j : Json) : Option VerifiedBlock := do
  let bl ← (jsonField j ("block")).bind decodeSignedBlock
  let dg ← (jsonField j ("digest")).bind decodeBlockDigest
  pure ⟨bl, dg⟩

/-- Deserialization of one reputation-score entry. -/
def decodeScore : Json → Option (AuthorityIndex × Nat)
  | .arr [a, b] => do
      let x ← decodeNat a
      let y ← decodeNat b
      pure (x, y)
  | _ => none

/-- Deserialization of `CommittedSubDag`. -/
def decodeCommittedSubDag (j : Json) : Option CommittedSubDag := do
  let ld ← (jsonField j ("leader")).bind decodeBlockRef
  let bls ← (jsonField j ("blocks")).bind (decodeList decodeVerifiedBlock)
  let ts ← (jsonField j ("timestamp_ms")).bind decodeNat
  let cr ← (jsonField j ("commit_ref")).bind decodeCommitRef
  let rs ← (jsonField j ("reputation_scores_desc")).bind (decodeList decodeScore)
  pure ⟨ld, bls, ts, cr, rs⟩

/-! ### Theorems -/

theorem cmpByte_eq_iff (a b : Byte) : cmpByte a b = .eq ↔ a = b := by
  unfold cmpByte
  rcases lt_trichotomy a b with h | h | h
  · simp [h, h.ne]
  · simp [h]
  · simp [h, not_lt_of_gt h, h.ne']

theorem cmpByte_lt_iff (a b : Byte) : cmpByte a b = .lt ↔ a < b := by
  unfold cmpByte
  rcases lt_trichotomy a b with h | h | h
  · simp [h]
  · simp [h, lt_irrefl]
  · simp [h, not_lt_of_gt h]

theorem cmpByte_gt_iff (a b : Byte) : cmpByte a b = .gt ↔ b < a := by
  unfold cmpByte
  rcases lt_trichotomy a b with h | h | h
  · simp [h, not_lt_of_gt h]
  · simp [h, lt_irrefl]
  · simp [h, not_lt_of_gt h]

theorem cmpBytes_eq_iff : ∀ l1 l2 : List Byte, cmpBytes l1 l2 = .eq ↔ l1 = l2
  | [], [] => by simp [cmpBytes]
  | [], _ :: _ => by simp [cmpBytes]
  | _ :: _, [] => by simp [cmpBytes]
  | a :: as_, b :: bs => by
    simp only [cmpBytes]
    cases h : cmpByte a b
    · simp only []
      constructor
      · intro hc
        exact absurd hc (by simp)
      · rintro ⟨rfl, rfl⟩
        rw [(cmpByte_eq_iff _ _).mpr rfl] at h
        exact absurd h (by simp)
    · have hab : a = b := (cmpByte_eq_iff _ _).mp h
      subst hab
      simp [cmpBytes_eq_iff as_ bs]
    · simp only []
      constructor
      · intro hc
        exact absurd hc (by simp)
      · rintro ⟨rfl, rfl⟩
        rw [(cmpByte_eq_iff _ _).mpr rfl] at h
        exact absurd h (by simp)

theorem cmpBytes_lt_iff :
    ∀ l1 l2 : List Byte, cmpBytes l1 l2 = .lt ↔ List.Lex (· < ·) l1 l2
  | [], [] => by simp [cmpBytes]
  | [], _ :: _ => by
    simp only [cmpBytes]
    simpa using List.Lex.nil
  | _ :: _, [] => by simp [cmpBytes]
  | a :: as_, b :: bs => by
    simp only [cmpBytes]
    cases h : cmpByte a b
    · exact iff_of_true rfl (List.Lex.rel ((cmpByte_lt_iff _ _).mp h))
    · have hab : a = b := (cmpByte_eq_iff _ _).mp h
      subst hab
      rw [List.Lex.cons_iff]
      exact cmpBytes_lt_iff as_ bs
    · have hba : b < a := (cmpByte_gt_iff _ _).mp h
      refine iff_of_false (by simp) fun hl => ?_
      cases hl with
      | cons htail => exact absurd rfl hba.ne
      | rel hrel => exact absurd hrel (not_lt_of_gt hba)

theorem cmpBytes_gt_iff :
    ∀ l1 l2 : List Byte, cmpBytes l1 l2 = .gt ↔ List.Lex (· < ·) l2 l1
  | [], [] => by simp [cmpBytes]
  | [], _ :: _ => by simp [cmpBytes]
  | _ :: _, [] => by
    simp only [cmpBytes]
    simpa using List.Lex.nil
  | a :: as_, b :: bs => by
    simp only [cmpBytes]
    cases h : cmpByte a b
    · have hab : a < b := (cmpByte_lt_iff _ _).mp h
      refine iff_of_false (by simp) fun hl => ?_
      cases hl with
      | cons htail => exact absurd rfl hab.ne
      | rel hrel => exact absurd hrel (not_lt_of_gt hab)
    · have hab : a = b := (cmpByte_eq_iff _ _).mp h
      subst hab
      rw [List.Lex.cons_iff]
      exact cmpBytes_gt_iff as_ bs
    · exact iff_of_true rfl (List.Lex.rel ((cmpByte_gt_iff _ _).mp h))

theorem cmpBytes_replicate_zero_ne_gt :
    ∀ l : List Byte, cmpBytes (List.replicate l.length 0) l ≠ .gt
  | [] => by simp [cmpBytes]
  | b :: bs => by
    simp only [List.length_cons, List.replicate_succ, cmpBytes]
    rcases eq_or_lt_of_le (Fin.zero_le b) with h | h
    · rw [(cmpByte_eq_iff _ _).mpr h]
      exact cmpBytes_replicate_zero_ne_gt bs
    · rw [(cmpByte_lt_iff _ _).mpr h]
      simp

theorem cmpBytes_replicate_max_ne_gt :
    ∀ l : List Byte, cmpBytes l (List.replicate l.length 255) ≠ .gt
  | [] => by simp [cmpBytes]
  | b :: bs => by
    simp only [List.length_cons, List.replicate_succ, cmpBytes]
    rcases lt_or_eq_of_le (Nat.lt_succ_iff.mp b.isLt) with h | h
    · rw [(cmpByte_lt_iff _ _).mpr (show b < 255 from h)]
      simp
    · have hb : b = 255 := Fin.ext h
      rw [(cmpByte_eq_iff _ _).mpr hb]
      exact cmpBytes_replicate_max_ne_gt bs

theorem blockDigest_le_iff (d1 d2 : BlockDigest) :
    BlockDigest.le d1 d2 = true ↔ cmpBytes d1.arr.val d2.arr.val ≠ .gt := by
  unfold BlockDigest.le BlockDigest.cmp
  cases h : cmpBytes d1.arr.val d2.arr.val <;> simp [h]

theorem blockDigest_eq_iff (d1 d2 : BlockDigest) : d1 = d2 ↔ d1.arr.val = d2.arr.val := by
  cases d1
  cases d2
  simp [Subtype.ext_iff]

/-- C5: every digest lies between `BlockDigest::MIN` (all-zero) and
`BlockDigest::MAX` (all-`0xFF`), and the derived `<=` on digests agrees
with lexicographic comparison of the underlying 32-byte arrays. -/
theorem blockDigest_min_max_lex :
    (∀ d : BlockDigest,
      BlockDigest.le BlockDigest.MIN d = true ∧ BlockDigest.le d BlockDigest.MAX = true)
    ∧ (∀ d1 d2 : BlockDigest,
      BlockDigest.le d1 d2 = true
        ↔ (d1 = d2 ∨ List.Lex (fun a b : Byte => a < b) d1.arr.val d2.arr.val)) := by
  have hlen : ∀ d : BlockDigest, d.arr.val.length = DIGEST_LENGTH := fun d => d.arr.property
  constructor
  · intro d
    constructor
    · rw [blockDigest_le_iff]
      have h0 := cmpBytes_replicate_zero_ne_gt d.arr.val
      rwa [hlen d] at h0
    · rw [blockDigest_le_iff]
      have h0 := cmpBytes_replicate_max_ne_gt d.arr.val
      rwa [hlen d] at h0
  · intro d1 d2
    rw [blockDigest_le_iff, blockDigest_eq_iff]
    constructor
    · intro h
      cases hc : cmpBytes d1.arr.val d2.arr.val
      · exact Or.inr (cmpBytes_lt_iff _ _ |>.mp hc)
      · exact Or.inl (cmpBytes_eq_iff _ _ |>.mp hc)
      · exact absurd hc h
    · rintro (h | h)
      · rw [cmpBytes_eq_iff _ _ |>.mpr h]
        simp
      · rw [cmpBytes_lt_iff _ _ |>.mpr h]
        simp

/-- C6: hashing a digest feeds the hasher only the first 8 of its 32 bytes:
digests built from identical byte arrays are equal and feed the hasher
identical bytes, while digests agreeing on the first 8 bytes but unequal as
arrays still feed the hasher identical bytes yet compare unequal. -/
theorem blockDigest_hash_first8 :
    (∀ (l : List Byte) (h1 h2 : l.length = DIGEST_LENGTH),
      (⟨⟨l, h1⟩⟩ : BlockDigest) = ⟨⟨l, h2⟩⟩
        ∧ BlockDigest.hashBytes ⟨⟨l, h1⟩⟩ = BlockDigest.hashBytes ⟨⟨l, h2⟩⟩)
    ∧ (∀ d1 d2 : BlockDigest,
      d1.arr.val.take 8 = d2.arr.val.take 8 → d1 ≠ d2 →
        BlockDigest.hashBytes d1 = BlockDigest.hashBytes d2 ∧ d1 ≠ d2) := by
  refine ⟨fun l h1 h2 => ⟨rfl, rfl⟩, fun d1 d2 h hne => ⟨?_, hne⟩⟩
  simpa [BlockDigest.hashBytes] using h

/-- Witness for C6 at concrete digests: the all-zero digest and the digest
differing only at byte 31 hash identically yet are unequal. -/
theorem blockDigest_hash_first8_witness :
    (sampleDigestA = sampleDigestA
      ∧ BlockDigest.hashBytes sampleDigestA = BlockDigest.hashBytes sampleDigestA)
    ∧ (BlockDigest.hashBytes sampleDigestA = BlockDigest.hashBytes sampleDigestB
      ∧ sampleDigestA ≠ sampleDigestB) :=
  ⟨blockDigest_hash_first8.1 (List.replicate DIGEST_LENGTH 0)
      (List.length_replicate _ _) (List.length_replicate _ _),
    blockDigest_hash_first8.2 sampleDigestA sampleDigestB (by decide) (by decide)⟩

/-- C1: for every `CommittedSubDag`, `len()` equals the length of the list
returned by `flatten_transactions()`; in particular a sub-DAG whose block
list is empty has both equal to zero. -/
theorem committedSubDag_len_eq_flatten_length :
    (∀ s : CommittedSubDag, s.len = s.flatten_transactions.length)
    ∧ (∀ (leader : BlockRef) (ts : BlockTimestampMs) (cr : CommitRef)
        (rs : List (AuthorityIndex × Nat)),
        (CommittedSubDag.mk leader [] ts cr rs).len = 0
          ∧ (CommittedSubDag.mk leader [] ts cr rs).flatten_transactions = []) := by
  constructor
  · intro s
    simp [CommittedSubDag.len, CommittedSubDag.flatten_transactions,
      List.length_flatten, List.map_map, Function.comp_def]
  · intro leader ts cr rs
    exact ⟨rfl, rfl⟩

/-- C2: `flatten_transactions()` is exactly the concatenation of each
block's transaction payloads, blocks in stored order and transactions in
stored order within each block; on the spec's concrete scenario the views
give `len() = 2` and `flatten_transactions() = [[1,2,3],[4,5,6]]`. -/
theorem flatten_transactions_is_ordered_concat :
    (∀ s : CommittedSubDag, s.flatten_transactions = concatBlockTransactions s.blocks)
    ∧ scenarioSubdag.len = 2
    ∧ scenarioSubdag.flatten_transactions = [[1, 2, 3], [4, 5, 6]] := by
  refine ⟨fun s => ?_, by decide, by decide⟩
  unfold CommittedSubDag.flatten_transactions
  induction s.blocks with
  | nil => rfl
  | cons b rest ih => simp [concatBlockTransactions, ih]

/-- C7: `SignedBlock::new(body)` always succeeds (it is total), leaves the
signature empty, and `transactions()` returns exactly the given body. -/
theorem signedBlock_new_empty_signature :
    ∀ body : Block,
      (SignedBlock.new body).signature = [] ∧ (SignedBlock.new body).transactions = body :=
  fun _ => ⟨rfl, rfl⟩

/-- C8: `Transaction::new(bytes)` is total (never fails, also on the empty
sequence), `data()` and `into_data()` return exactly the stored bytes, and
equality of transactions is byte-exact equality of payloads. -/
theorem transaction_new_data_roundtrip :
    (∀ bytes : List Byte,
      (Transaction.new bytes).data = bytes ∧ (Transaction.new bytes).into_data = bytes)
    ∧ (∀ t1 t2 : Transaction, t1 = t2 ↔ t1.data = t2.data) := by
  refine ⟨fun _ => ⟨rfl, rfl⟩, fun t1 t2 => ?_⟩
  cases t1
  cases t2
  simp [Transaction.data]

/-- Counterexample to C3: the two commit-delivery methods are declared
under the RPC namespace `"mysticeti"`, not `"commit-delivery"` — no method
of the `MysticetiConsensusApi` trait carries the namespace the claim
names. -/
theorem commit_methods_namespace_counterexample :
    mysticetiConsensusApi.map RpcMethod.ns = ["mysticeti", "mysticeti"]
      ∧ ("mysticeti" : String) ≠ "commit-delivery" := by
  decide

/-- C3 (amended): `submitCommittedSubdags` (list payload) and
`submitCommittedSubdag` (single sub-DAG) are exposed under the RPC
namespace named `"mysticeti"`, and `sendRawTransactionAsync` (one byte
sequence), `sendRawTransactionsAsync` (list of byte sequences) and
`subscribeRawTransactions` (subscription pushing batches) under the RPC
namespace named `"rawtx"`. -/
theorem rpc_surface_methods_and_namespaces :
    (mysticetiConsensusApi.map RpcMethod.method
        = ["submitCommittedSubdags", "submitCommittedSubdag"]
      ∧ mysticetiConsensusApi.map RpcMethod.ns = ["mysticeti", "mysticeti"]
      ∧ mysticetiConsensusApi.map RpcMethod.payload
        = [.committedSubDagList, .committedSubDag])
    ∧ (rawTransactionApi.map RpcMethod.method
        = ["sendRawTransactionAsync", "sendRawTransactionsAsync", "subscribeRawTransactions"]
      ∧ rawTransactionApi.map RpcMethod.ns = ["rawtx", "rawtx", "rawtx"]
      ∧ rawTransactionApi.map RpcMethod.payload
        = [.rawBytes, .rawBytesList, .rawBytesBatchStream]) := by
  decide

theorem base64Encode_length_ge_four (a b c : Byte) (rest : List Byte) :
    4 ≤ (base64Encode (a :: b :: c :: rest)).length := by
  simp [base64Encode]

/-- C9: for every digest, the short `Display` form succeeds and equals
exactly the first four characters of the standard base64 encoding of the
32 bytes, the `Debug` form equals the entire encoding, and the encoding of
32 bytes always has at least four characters. -/
theorem blockDigest_display_first4_of_base64 :
    ∀ d : BlockDigest,
      4 ≤ (base64Encode d.arr.val).length
        ∧ BlockDigest.display d = some ((base64Encode d.arr.val).take 4)
        ∧ BlockDigest.debugStr d = base64Encode d.arr.val := by
  intro d
  have hprop := d.arr.property
  have hlen : 4 ≤ (base64Encode d.arr.val).length := by
    rcases hval : d.arr.val with _ | ⟨a, _ | ⟨b, _ | ⟨c, rest⟩⟩⟩ <;>
      rw [hval] at hprop <;> simp [DIGEST_LENGTH] at hprop
    exact base64Encode_length_ge_four a b c rest
  exact ⟨hlen, by simp [BlockDigest.display, hlen], rfl⟩

/-- C10: `serialize_transactions` returns `Ok` with a JSON string for every
batch, including the empty batch; concretely it renders the empty batch as
the empty JSON array and a three-transaction batch as the nested array the
repository's own tests expect. -/
theorem serialize_transactions_always_ok :
    (∀ batch : List (List Byte), ∃ s, serialize_transactions batch = .ok s)
    ∧ serialize_transactions [] = .ok "[]"
    ∧ serialize_transactions [[1, 2, 3], [4, 5, 6], [7, 8, 9]]
        = .ok "[[1,2,3],[4,5,6],[7,8,9]]" := by
  refine ⟨fun batch => ⟨renderBatch batch, rfl⟩, rfl, rfl⟩

theorem mapM_map_roundtrip {α : Type} (enc : α → Json) (dec : Json → Option α)
    (h : ∀ a, dec (enc a) = some a) (l : List α) :
    (l.map enc).mapM dec = some l := by
  induction l with
  | nil => rfl
  | cons a t ih =>
    rw [List.map_cons, List.mapM_cons, h a, ih]
    rfl

theorem decodeByte_encode (b : Byte) : decodeByte (encodeByte b) = some b := by
  simp [decodeByte, encodeByte, b.isLt]

theorem decodeBytes_encode (l : List Byte) : decodeBytes (encodeBytes l) = some l :=
  mapM_map_roundtrip encodeByte decodeByte decodeByte_encode l

theorem decodeList_encode {α : Type} (enc : α → Json) (dec : Json → Option α)
    (h : ∀ a, dec (enc a) = some a) (l : List α) :
    decodeList dec (.arr (l.map enc)) = some l :=
  mapM_map_roundtrip enc dec h l

theorem decodeDigest32_encode (d : Digest32) : decodeDigest32 (encodeDigest32 d) = some d := by
  obtain ⟨l, hl⟩ := d
  have h1 := decodeBytes_encode l
  simp only [encodeBytes] at h1
  simp [decodeDigest32, encodeDigest32, h1, hl]

theorem decodeBlockDigest_encode (d : BlockDigest) :
    decodeBlockDigest (encodeBlockDigest d) = some d := by
  cases d with
  | mk a => simp [decodeBlockDigest, encodeBlockDigest, decodeDigest32_encode]

theorem decodeTransaction_encode (t : Transaction) :
    decodeTransaction (encodeTransaction t) = some t := by
  cases t with
  | mk inner =>
    have hf : jsonField (encodeTransaction ⟨inner⟩) ("inner") = some (encodeBytes inner) := rfl
    simp [decodeTransaction, hf, decodeBytes_encode]

theorem decodeSignedBlock_encode (b : SignedBlock) :
    decodeSignedBlock (encodeSignedBlock b) = some b := by
  cases b with
  | mk inner sig =>
    have hf1 : jsonField (encodeSignedBlock ⟨inner, sig⟩) ("inner")
        = some (.arr (inner.map encodeTransaction)) := rfl
    have hf2 : jsonField (encodeSignedBlock ⟨inner, sig⟩) ("signature")
        = some (encodeBytes sig) := rfl
    simp [decodeSignedBlock, hf1, hf2, decodeBytes_encode,
      decodeList_encode encodeTransaction decodeTransaction decodeTransaction_encode]

theorem decodeBlockRef_encode (r : BlockRef) :
    decodeBlockRef (encodeBlockRef r) = some r := by
  cases r with
  | mk la dg rd =>
    have hf1 : jsonField (encodeBlockRef ⟨la, dg, rd⟩) ("leader_address")
        = some (.str la) := rfl
    have hf2 : jsonField (encodeBlockRef ⟨la, dg, rd⟩) ("digest")
        = some (encodeDigest32 dg) := rfl
    have hf3 : jsonField (encodeBlockRef ⟨la, dg, rd⟩) ("round") = some (.num rd) := rfl
    simp [decodeBlockRef, hf1, hf2, hf3, decodeString, decodeNat, decodeDigest32_encode]

theorem decodeCommitRef_encode (r : CommitRef) :
    decodeCommitRef (encodeCommitRef r) = some r := by
  cases r with
  | mk dg rd =>
    have hf1 : jsonField (encodeCommitRef ⟨dg, rd⟩) ("digest")
        = some (encodeDigest32 dg) := rfl
    have hf2 : jsonField (encodeCommitRef ⟨dg, rd⟩) ("round") = some (.num rd) := rfl
    simp [decodeCommitRef, hf1, hf2, decodeNat, decodeDigest32_encode]

theorem decodeVerifiedBlock_encode (v : VerifiedBlock) :
    decodeVerifiedBlock (encodeVerifiedBlock v) = some v := by
  cases v with
  | mk bl dg =>
    have hf1 : jsonField (encodeVerifiedBlock ⟨bl, dg⟩) ("block")
        = some (encodeSignedBlock bl) := rfl
    have hf2 : jsonField (encodeVerifiedBlock ⟨bl, dg⟩) ("digest")
        = some (encodeBlockDigest dg) := rfl
    simp [decodeVerifiedBlock, hf1, hf2, decodeSignedBlock_encode, decodeBlockDigest_encode]

theorem decodeScore_encode (p : AuthorityIndex × Nat) : decodeScore (encodeScore p) = some p :=
  rfl

theorem decodeCommittedSubDag_encode (s : CommittedSubDag) :
    decodeCommittedSubDag (encodeCommittedSubDag s) = some s := by
  cases s with
  | mk ld bls ts cr rs =>
    have hf1 : jsonField (encodeCommittedSubDag ⟨ld, bls, ts, cr, rs⟩) ("leader")
        = some (encodeBlockRef ld) := rfl
    have hf2 : jsonField (encodeCommittedSubDag ⟨ld, bls, ts, cr, rs⟩) ("blocks")
        = some (.arr (bls.map encodeVerifiedBlock)) := rfl
    have hf3 : jsonField (encodeCommittedSubDag ⟨ld, bls, ts, cr, rs⟩) ("timestamp_ms")
        = some (.num ts) := rfl
    have hf4 : jsonField (encodeCommittedSubDag ⟨ld, bls, ts, cr, rs⟩) ("commit_ref")
        = some (encodeCommitRef cr) := rfl
    have hf5 : jsonField (encodeCommittedSubDag ⟨ld, bls, ts, cr, rs⟩)
        ("reputation_scores_desc") = some (.arr (rs.map encodeScore)) := rfl
    simp [decodeCommittedSubDag, hf1, hf2, hf3, hf4, hf5, decodeNat,
      decodeBlockRef_encode, decodeCommitRef_encode,
      decodeList_encode encodeVerifiedBlock decodeVerifiedBlock decodeVerifiedBlock_encode,
      decodeList_encode encodeScore decodeScore decodeScore_encode]

/-- C4: for each wire type — `BlockDigest`, `BlockRef`, `CommitRef`,
`Transaction`, `SignedBlock`, `VerifiedBlock`, `CommittedSubDag` —
serializing to the JSON tree of the textual encoding and deserializing
yields exactly the original value, structurally equal on all fields
(byte-exact payloads, signature bytes, reputation-score order included). -/
theorem wire_types_roundtrip :
    (∀ d : BlockDigest, decodeBlockDigest (encodeBlockDigest d) = some d)
    ∧ (∀ r : BlockRef, decodeBlockRef (encodeBlockRef r) = some r)
    ∧ (∀ r : CommitRef, decodeCommitRef (encodeCommitRef r) = some r)
    ∧ (∀ t : Transaction, decodeTransaction (encodeTransaction t) = some t)
    ∧ (∀ b : SignedBlock, decodeSignedBlock (encodeSignedBlock b) = some b)
    ∧ (∀ v : VerifiedBlock, decodeVerifiedBlock (encodeVerifiedBlock v) = some v)
    ∧ (∀ s : CommittedSubDag, decodeCommittedSubDag (encodeCommittedSubDag s) = some s) :=
  ⟨decodeBlockDigest_encode, decodeBlockRef_encode, decodeCommitRef_encode,
   decodeTransaction_encode, decodeSignedBlock_encode, decodeVerifiedBlock_encode,
   decodeCommittedSubDag_encode⟩

end RpcSharedApi
